import Mathlib

set_option maxRecDepth 100000

/-!
Verification development for the kernel gateway's notebook-HTTP swagger
cell-annotation resolver and the seeding kernel manager.

The cell-annotation resolver (`SwaggerCellParser`) is modelled from the
specification: the repository snapshot carries only its unit tests
(`src/tests/notebook_http/swagger/test_parser.py`), so every definition in
the first part of this file is a faithful transcription of the behaviour
stated in the specification document, cross-checked against those tests.
JSON decoding of the fenced specification cell is abstracted as an oracle
parameter `decode : String → Option SwaggerSpec` (the component only
locates and JSON-decodes the block; the JSON grammar itself is out of
scope), instantiated concretely for each test document.

The kernel manager (`_async_launch_kernel`,
`src/kernel_gateway/services/kernels/manager.py`, lines 137-143) is
embedded directly from the source.
-/

/-! ## Character-level utilities -/

/-- Modelled from the spec: drop a leading run of spaces
(the annotation grammar tolerates arbitrary runs of space). -/
def dropSpaces : List Char → List Char
  | [] => []
  | c :: cs => if c = ' ' then dropSpaces cs else c :: cs

/-- Modelled from the spec: trim leading and trailing spaces from the
extracted operation id (the id is stored "trimmed"). -/
def trimChars (cs : List Char) : List Char :=
  ((dropSpaces ((dropSpaces cs).reverse)).reverse)

/-- Split a character list on a separator character, accumulator-based. -/
def splitOnCharAux (sep : Char) : List Char → List Char → List (List Char)
  | [], acc => [acc.reverse]
  | c :: cs, acc =>
    if c = sep then acc.reverse :: splitOnCharAux sep cs []
    else splitOnCharAux sep cs (c :: acc)

/-- Split a character list on a separator character. -/
def splitOnChar (sep : Char) (cs : List Char) : List (List Char) :=
  splitOnCharAux sep cs []

/-- A cell's text is matched line by line. -/
def splitLines (cs : List Char) : List (List Char) :=
  splitOnChar '\n' cs

/-! ## Annotation scanner -/

/-- The two annotation flavours: a plain operation annotation and a
response (`ResponseInfo`) annotation. -/
inductive AnnKind where
  | operation : AnnKind
  | response : AnnKind
deriving DecidableEq

/-- Modelled from the spec: after the comment marker (and, for response
annotations, after `ResponseInfo` and whitespace) the line must read
`operationId`, optional whitespace, a colon, optional whitespace, then the
operation id, which is trimmed. Returns the extracted id. -/
def matchOperationTail (cs : List Char) : Option (List Char) :=
  if "operationId".data.isPrefixOf cs then
    match dropSpaces (cs.drop "operationId".data.length) with
    | ':' :: rest => some (trimChars rest)
    | _ => none
  else none

/-- Modelled from the spec: classify one line of a cell. A line beginning
with the comment marker, optional whitespace, `ResponseInfo`, one or more
spaces, then the `operationId:` pattern is a response annotation; a line
beginning with the comment marker, optional whitespace, then the
`operationId:` pattern directly is an operation annotation. -/
def classifyLine (marker : List Char) (line : List Char) : Option (AnnKind × List Char) :=
  if marker.isPrefixOf line then
    let rest := dropSpaces (line.drop marker.length)
    if "ResponseInfo".data.isPrefixOf rest then
      match rest.drop "ResponseInfo".data.length with
      | ' ' :: cs => (matchOperationTail (dropSpaces cs)).map (fun t => (AnnKind.response, t))
      | _ => none
    else (matchOperationTail rest).map (fun t => (AnnKind.operation, t))
  else none

/-- Modelled from the spec: scan a cell's text line by line; the first
line matching either detection rule determines the cell's annotation
(kind and extracted operation id). A cell matching neither rule is not an
annotation. -/
def classifyCell (marker : String) (source : String) : Option (AnnKind × String) :=
  ((splitLines source.data).findSome? (classifyLine marker.data)).map
    (fun p => (p.1, String.mk p.2))

/-- Detection predicate for operation annotation cells. -/
def is_api_cell (marker : String) (source : String) : Bool :=
  match classifyCell marker source with
  | some (AnnKind.operation, _) => true
  | _ => false

/-- Detection predicate for response annotation cells. -/
def is_api_response_cell (marker : String) (source : String) : Bool :=
  match classifyCell marker source with
  | some (AnnKind.response, _) => true
  | _ => false

/-! ## Specification document and template synthesis -/

/-- Modelled from the spec: one declared operation definition —
an operation id together with the ordered list of declared parameter
names. -/
structure SwaggerOp where
  operationId : String
  parameters : List String
deriving DecidableEq

/-- Modelled from the spec: the decoded specification document — an
ordered mapping from path string to an ordered mapping from HTTP verb to
an operation definition. Association lists model the document's (insertion)
iteration order. -/
abbrev SwaggerSpec := List (String × List (String × SwaggerOp))

/-- Modelled from the spec: synthesize the endpoint template for a
declared path — start from the literal path string and append a `/:name`
segment for every declared parameter, in declared list order. -/
def synthTemplate (path : String) (params : List String) : String :=
  params.foldl (fun t n => t ++ "/:" ++ n) path

/-- Modelled from the spec: the declared-operations index in document
iteration order — one `(operation id, endpoint template, verb)` entry per
declared (path, verb) pair. -/
def operationEntries (spec : SwaggerSpec) : List (String × String × String) :=
  (spec.map (fun pv =>
    pv.2.map (fun vo => (vo.2.operationId, synthTemplate pv.1 vo.2.parameters, vo.1)))).flatten

/-- Modelled from the spec: look an operation id up in the declared index;
on duplicate declarations the later one in document iteration order wins. -/
def lookupOp (idx : List (String × String × String)) (opId : String) :
    Option (String × String) :=
  (idx.reverse.find? (fun e => decide (e.1 = opId))).map (fun e => e.2)

/-! ## Specification locator -/

/-- Modelled from the spec: scan the cells in order and return the first
cell whose text decodes (via the `decode` oracle) to a specification
document bearing the marker key; absence is a legitimate state. -/
def findSpec (decode : String → Option SwaggerSpec) : List String → Option SwaggerSpec
  | [] => none
  | c :: cs =>
    match decode c with
    | some s => some s
    | none => findSpec decode cs

/-- Modelled from the spec: the cells the annotation scanner runs over —
all cells except the specification cell itself (the first cell the decode
oracle accepts); when no specification is found, every cell is scanned. -/
def annotationCells (decode : String → Option SwaggerSpec) : List String → List String
  | [] => []
  | c :: cs =>
    match decode c with
    | some _ => cs
    | none => c :: annotationCells decode cs

/-! ## Endpoint tables -/

/-- verb ↦ accumulated source text -/
abbrev VerbTable := List (String × String)

/-- endpoint template ↦ verb table -/
abbrev EndpointTable := List (String × VerbTable)

/-- Modelled from the spec: each bound cell's raw text is stored with its
own trailing line terminator (one is appended when the text does not
already end in one, per the concatenation tests). -/
def ensureNl (s : String) : String :=
  if s.data.getLast? = some '\n' then s else s ++ "\n"

/-- Append `text` to the accumulator for `verb`, keeping first-insertion
order of verbs (Python dict semantics). -/
def updV (vt : VerbTable) (verb text : String) : VerbTable :=
  match vt with
  | [] => [(verb, text)]
  | p :: rest =>
    if p.1 = verb then (p.1, p.2 ++ text) :: rest else p :: updV rest verb text

/-- Append `text` to the accumulator for `(template, verb)`, keeping
first-insertion order of templates (Python dict semantics). -/
def updE (et : EndpointTable) (tmpl verb text : String) : EndpointTable :=
  match et with
  | [] => [(tmpl, [(verb, text)])]
  | p :: rest =>
    if p.1 = tmpl then (p.1, updV p.2 verb text) :: rest
    else p :: updE rest tmpl verb text

/-- Look a verb up in a verb table. -/
def lookupVerb (vt : VerbTable) (v : String) : Option String :=
  (vt.find? (fun p => decide (p.1 = v))).map (fun p => p.2)

/-- Look a (template, verb) pair up in an endpoint table. -/
def lookupTV (et : EndpointTable) (t v : String) : Option String :=
  match et.find? (fun p => decide (p.1 = t)) with
  | some e => lookupVerb e.2 v
  | none => none

/-- Modelled from the spec: the binding of one scanned cell — its
annotation's operation id looked up in the declared index, provided the
annotation is of the requested kind. -/
def cellBinding (idx : List (String × String × String)) (marker : String)
    (kind : AnnKind) (src : String) : Option (String × String) :=
  match classifyCell marker src with
  | some (k, opId) => if k = kind then lookupOp idx opId else none
  | none => none

/-- One binding step of the endpoint resolver: a cell that binds appends
its (newline-terminated) text to the accumulator for its (template, verb);
an unbound or unannotated cell leaves the table unchanged. -/
def addCell (idx : List (String × String × String)) (marker : String) (kind : AnnKind)
    (tbl : EndpointTable) (src : String) : EndpointTable :=
  match cellBinding idx marker kind src with
  | some tv => updE tbl tv.1 tv.2 (ensureNl src)
  | none => tbl

/-- Modelled from the spec: bind every scanned cell of the requested kind,
in document order, accumulating concatenated source text per
(template, verb). -/
def buildTable (idx : List (String × String × String)) (marker : String) (kind : AnnKind)
    (cells : List String) : EndpointTable :=
  cells.foldl (addCell idx marker kind) []

/-! ## Sorting -/

/-- Modelled from the spec: the default specificity key of a template —
the pair (number of path segments, number of literal non-placeholder
segments). -/
def defaultSortKey (t : String) : Nat × Nat :=
  let segs := (splitOnChar '/' t.data).filter (fun s => !s.isEmpty)
  (segs.length, (segs.filter (fun s => decide (s.head? ≠ some ':'))).length)

/-- Lexicographic comparison of specificity pairs (Python tuple order). -/
def lexLeNN (a b : Nat × Nat) : Bool :=
  decide (a.1 < b.1) || (a.1 == b.1 && decide (a.2 ≤ b.2))

/-- Modelled from the spec: sort the endpoint entries so that the highest
key sorts first (descending, stable). `keyLe` is the order on key values,
`sortKey` the (default or caller-supplied) key function on templates. -/
def sortEndpoints {K : Type} (keyLe : K → K → Bool) (sortKey : String → K)
    (tbl : EndpointTable) : EndpointTable :=
  tbl.insertionSort (fun a b => keyLe (sortKey b.1) (sortKey a.1) = true)

/-! ## The resolver -/

/-- The output of one resolution pass: the ordered operation routing
table, the ordered response routing table, and the two reconciliation
diagnostic lists. -/
structure ResolveResult where
  endpoints : EndpointTable
  endpoint_responses : EndpointTable
  undeclared : List String
  unreferenced : List String
deriving DecidableEq

/-- The operation ids referenced by annotations, in document order. -/
def referencedIds (marker : String) (cells : List String) : List String :=
  cells.filterMap (fun c => (classifyCell marker c).map (fun p => p.2))

/-- The declared index derived from the located specification document
(empty when no specification was found). -/
def idxOf : Option SwaggerSpec → List (String × String × String)
  | some spec => operationEntries spec
  | none => []

/-- Modelled from the spec: the resolver core, a function of the located
specification document and the scanned cells. Bind and concatenate each
annotation kind into its own table, sort both tables descending by the
specificity key, and — only when a specification was found — report
undeclared and unreferenced operation ids (one diagnostic per id). -/
def resolveCore {K : Type} (specOpt : Option SwaggerSpec) (marker : String)
    (acells : List String) (keyLe : K → K → Bool) (sortKey : String → K) : ResolveResult :=
  let idx := idxOf specOpt
  let referenced := referencedIds marker acells
  { endpoints := sortEndpoints keyLe sortKey (buildTable idx marker AnnKind.operation acells)
    endpoint_responses :=
      sortEndpoints keyLe sortKey (buildTable idx marker AnnKind.response acells)
    undeclared := match specOpt with
      | some _ => (referenced.filter (fun i => (lookupOp idx i).isNone)).dedup
      | none => []
    unreferenced := match specOpt with
      | some _ => ((idx.map (fun e => e.1)).filter (fun i => !referenced.contains i)).dedup
      | none => [] }

/-- Modelled from the spec: one full resolution pass — locate the
specification, scan the cells (excluding the specification cell), and run
the resolver core. -/
def resolve {K : Type} (decode : String → Option SwaggerSpec) (marker : String)
    (cells : List String) (keyLe : K → K → Bool) (sortKey : String → K) : ResolveResult :=
  resolveCore (findSpec decode cells) marker (annotationCells decode cells) keyLe sortKey

/-- The declared index of a document, as seen by one resolution pass. -/
def declaredIdx (decode : String → Option SwaggerSpec) (cells : List String) :
    List (String × String × String) :=
  idxOf (findSpec decode cells)

/-- Concatenation of stored source pieces. -/
def concatPieces (l : List String) : String :=
  l.foldr (fun a b => a ++ b) ""

/-- Does this cell carry an annotation of the given kind bound to
`(t, v)`? -/
def bindsTV (idx : List (String × String × String)) (marker : String) (kind : AnnKind)
    (t v : String) (src : String) : Bool :=
  decide (cellBinding idx marker kind src = some (t, v))

/-- The concatenated (newline-terminated) source of every cell of the
given kind bound to `(t, v)`, in document order. -/
def piecesFor (idx : List (String × String × String)) (marker : String) (kind : AnnKind)
    (t v : String) (cells : List String) : String :=
  concatPieces ((cells.filter (bindsTV idx marker kind t v)).map ensureNl)

/-- Select one of the two routing tables by annotation kind. -/
def tableOf (r : ResolveResult) (kind : AnnKind) : EndpointTable :=
  match kind with
  | AnnKind.operation => r.endpoints
  | AnnKind.response => r.endpoint_responses

/-! ## Kernel launch environment (src/kernel_gateway/services/kernels/manager.py) -/

/-- `env[key] = value` on an environment mapping. -/
def dictSet (env : String → Option String) (key value : String) : String → Option String :=
  fun k => if k = key then some value else env k

/-- `del env[key]` on an environment mapping. -/
def dictDel (env : String → Option String) (key : String) : String → Option String :=
  fun k => if k = key then none else env k

/-- `KernelGatewayIOLoopKernelManager._async_launch_kernel` (manager.py
lines 137-143): sets `KERNEL_GATEWAY` to `"1"` and, when present, deletes
`KG_AUTH_TOKEN` from the environment passed to the kernel. The result is
the environment mapping the launched kernel receives, read at key `k`. -/
def launchKernelEnv (env : String → Option String) (k : String) : Option String :=
  let env1 := dictSet env "KERNEL_GATEWAY" "1"
  if (env1 "KG_AUTH_TOKEN").isSome then dictDel env1 "KG_AUTH_TOKEN" k else env1 k

/-! ## Concrete documents from the unit tests -/

/-- The fenced specification cell of `test_endpoint_sort_default_strategy`. -/
def specSrc1 : String :=
  "\n```\n\x7b\"swagger\":\"2.0\",\"paths\":\x7b\"\":\x7b\"post\":\x7b\"operationId\":\"postRoot\",\"parameters\":[\x7b\"name\":\"foo\"\x7d]\x7d\x7d,\"/hello\":\x7b\"post\":\x7b\"operationId\":\"postHello\",\"parameters\":[\x7b\"name\":\"foo\"\x7d]\x7d,\"get\":\x7b\"operationId\":\"getHello\",\"parameters\":[\x7b\"name\":\"foo\"\x7d]\x7d\x7d,\"/hello/world\":\x7b\"put\":\x7b\"operationId\":\"putWorld\"\x7d\x7d\x7d\x7d\n```\n"

/-- The decoded form of `specSrc1`. -/
def spec1 : SwaggerSpec :=
  [("", [("post", ⟨"postRoot", ["foo"]⟩)]),
   ("/hello", [("post", ⟨"postHello", ["foo"]⟩), ("get", ⟨"getHello", ["foo"]⟩)]),
   ("/hello/world", [("put", ⟨"putWorld", []⟩)])]

/-- Decode oracle for the default-sort test document. -/
def decode1 (s : String) : Option SwaggerSpec :=
  if s = specSrc1 then some spec1 else none

/-- The cells of `test_endpoint_sort_default_strategy`. -/
def cells1 : List String :=
  [specSrc1, "# operationId:putWorld", "# operationId:getHello",
   "# operationId:postHello", "# operationId:postRoot"]

/-- The fenced specification cell of `test_endpoint_sort_custom_strategy`. -/
def specSrc2 : String :=
  "```\n\x7b\"swagger\": \"2.0\", \"paths\": \x7b\"/1\": \x7b\"post\": \x7b\"operationId\": \"post1\"\x7d\x7d,\"/+\": \x7b\"post\": \x7b\"operationId\": \"postPlus\"\x7d\x7d,\"/a\": \x7b\"get\": \x7b\"operationId\": \"getA\"\x7d\x7d\x7d\x7d\n```\n"

/-- The decoded form of `specSrc2`. -/
def spec2 : SwaggerSpec :=
  [("/1", [("post", ⟨"post1", []⟩)]),
   ("/+", [("post", ⟨"postPlus", []⟩)]),
   ("/a", [("get", ⟨"getA", []⟩)])]

/-- Decode oracle for the custom-sort test document. -/
def decode2 (s : String) : Option SwaggerSpec :=
  if s = specSrc2 then some spec2 else none

/-- The cells of `test_endpoint_sort_custom_strategy`. -/
def cells2 : List String :=
  [specSrc2, "# operationId: post1", "# operationId: postPlus", "# operationId: getA"]

/-- The custom sort key of `test_endpoint_sort_custom_strategy`. -/
def customSortFun (endpoint : String) : Nat :=
  if endpoint.data.contains '1' then 0
  else if endpoint.data.contains 'a' then 1
  else 2

/-- The fenced specification cell of `test_endpoint_concatenation`. -/
def specSrc3 : String :=
  "```\n\x7b\"swagger\":\"2.0\", \"paths\": \x7b\"/foo\": \x7b\"put\": \x7b\"operationId\":\"putFoo\",\"parameters\": [\x7b\"name\": \"bar\"\x7d]\x7d,\"post\":\x7b\"operationId\":\"postFooBody\"\x7d,\"get\": \x7b\"operationId\":\"getFoo\",\"parameters\": [\x7b\"name\": \"bar\"\x7d]\x7d\x7d\x7d\x7d\n```\n"

/-- The decoded form of `specSrc3`. -/
def spec3 : SwaggerSpec :=
  [("/foo", [("put", ⟨"putFoo", ["bar"]⟩), ("post", ⟨"postFooBody", []⟩),
             ("get", ⟨"getFoo", ["bar"]⟩)])]

/-- Decode oracle for the concatenation test document. -/
def decode3 (s : String) : Option SwaggerSpec :=
  if s = specSrc3 then some spec3 else none

/-- The cells of `test_endpoint_concatenation`. -/
def cells3 : List String :=
  [specSrc3, "# operationId: postFooBody ", "# unrelated comment ",
   "# operationId: putFoo", "# operationId: puttFoo", "# operationId: getFoo",
   "# operationId: putFoo"]

/-- The fenced specification cell of `test_undeclared_operations`. -/
def specSrc6 : String :=
  "```\n\x7b\"swagger\":\"2.0\", \"paths\": \x7b\"/foo\": \x7b\"put\": \x7b\"operationId\":\"putbar\",\"parameters\": [\x7b\"name\": \"bar\"\x7d]\x7d,\"post\":\x7b\"operationId\":\"postbar\"\x7d,\"get\": \x7b\"operationId\":\"get\",\"parameters\": [\x7b\"name\": \"bar\"\x7d]\x7d\x7d\x7d\x7d\n```\n"

/-- The decoded form of `specSrc6`. -/
def spec6 : SwaggerSpec :=
  [("/foo", [("put", ⟨"putbar", ["bar"]⟩), ("post", ⟨"postbar", []⟩),
             ("get", ⟨"get", ["bar"]⟩)])]

/-- Decode oracle for the undeclared-operations test document. -/
def decode6 (s : String) : Option SwaggerSpec :=
  if s = specSrc6 then some spec6 else none

/-- The annotation cells of `test_undeclared_operations` (the
specification cell precedes them there, follows them in the reversed
variant). -/
def annCells6 : List String :=
  ["# operationId: get", "# operationId: postbar ", "# operationId: putbar",
   "# operationId: extraOperation"]

/-- A small document with an operation annotation and a response
annotation referencing the same operation id. -/
def spec8 : SwaggerSpec := [("/f", [("post", ⟨"foo", []⟩)])]

/-- Decode oracle for the shared-id document. -/
def decode8 (s : String) : Option SwaggerSpec :=
  if s = "SPEC8" then some spec8 else none

/-- Cells of the shared-id document. -/
def cells8 : List String :=
  ["SPEC8", "# operationId: foo", "# ResponseInfo operationId: foo"]

/-- A concrete caller environment for the kernel-launch claim. -/
def envC10 (k : String) : Option String :=
  if k = "KG_AUTH_TOKEN" then some "secret"
  else if k = "PATH" then some "/usr/bin"
  else none

/-! ## Table lemmas -/

theorem updV_cons (p : String × String) (rest : VerbTable) (v x : String) :
    updV (p :: rest) v x =
      if p.1 = v then (p.1, p.2 ++ x) :: rest else p :: updV rest v x := rfl

theorem updE_cons (p : String × VerbTable) (rest : EndpointTable) (t v x : String) :
    updE (p :: rest) t v x =
      if p.1 = t then (p.1, updV p.2 v x) :: rest else p :: updE rest t v x := rfl

theorem lookupVerb_cons (p : String × String) (rest : VerbTable) (v : String) :
    lookupVerb (p :: rest) v = if p.1 = v then some p.2 else lookupVerb rest v := by
  by_cases h : p.1 = v
  · simp [lookupVerb, List.find?_cons_of_pos, h]
  · simp [lookupVerb, List.find?_cons_of_neg, h]

theorem lookupTV_cons (p : String × VerbTable) (rest : EndpointTable) (t v : String) :
    lookupTV (p :: rest) t v = if p.1 = t then lookupVerb p.2 v else lookupTV rest t v := by
  by_cases h : p.1 = t
  · simp [lookupTV, List.find?_cons_of_pos, h]
  · simp [lookupTV, List.find?_cons_of_neg, h]

theorem lookupVerb_updV_same (vt : VerbTable) (v x : String) :
    lookupVerb (updV vt v x) v = some ((lookupVerb vt v).getD "" ++ x) := by
  induction vt with
  | nil => simp [updV, lookupVerb_cons, lookupVerb]
  | cons p rest ih =>
    by_cases h : p.1 = v
    · simp [updV_cons, lookupVerb_cons, h]
    · simp [updV_cons, lookupVerb_cons, h, ih]

theorem lookupVerb_updV_other (vt : VerbTable) (v x v' : String) (h : v' ≠ v) :
    lookupVerb (updV vt v x) v' = lookupVerb vt v' := by
  induction vt with
  | nil => simp [updV, lookupVerb_cons, lookupVerb, Ne.symm h]
  | cons p rest ih =>
    by_cases hp : p.1 = v
    · have hv : v ≠ v' := Ne.symm h
      simp [updV_cons, lookupVerb_cons, hp, hv]
    · simp [updV_cons, lookupVerb_cons, hp, ih]

theorem lookupTV_updE_same (et : EndpointTable) (t v x : String) :
    lookupTV (updE et t v x) t v = some ((lookupTV et t v).getD "" ++ x) := by
  induction et with
  | nil =>
    simp [updE, lookupTV_cons, lookupTV, lookupVerb_cons, lookupVerb]
  | cons p rest ih =>
    by_cases h : p.1 = t
    · simp [updE_cons, lookupTV_cons, h, lookupVerb_updV_same]
    · simp [updE_cons, lookupTV_cons, h, ih]

theorem lookupTV_updE_other (et : EndpointTable) (t v x t' v' : String)
    (h : t' ≠ t ∨ v' ≠ v) :
    lookupTV (updE et t v x) t' v' = lookupTV et t' v' := by
  induction et with
  | nil =>
    rcases h with h | h
    · simp [updE, lookupTV_cons, lookupTV, Ne.symm h]
    · by_cases ht : t = t'
      · simp [updE, lookupTV_cons, lookupTV, ht, lookupVerb_cons, lookupVerb, Ne.symm h]
      · simp [updE, lookupTV_cons, lookupTV, ht]
  | cons p rest ih =>
    by_cases hp : p.1 = t
    · rcases h with h | h
      · have ht : t ≠ t' := Ne.symm h
        simp [updE_cons, lookupTV_cons, hp, ht]
      · by_cases htt : t = t'
        · simp [updE_cons, lookupTV_cons, hp, htt, lookupVerb_updV_other _ _ _ _ h]
        · simp [updE_cons, lookupTV_cons, hp, htt]
    · simp [updE_cons, lookupTV_cons, hp, ih]

theorem concatPieces_nil : concatPieces [] = "" := rfl

theorem concatPieces_cons (a : String) (l : List String) :
    concatPieces (a :: l) = a ++ concatPieces l := rfl

theorem bindsTV_eq_true {idx : List (String × String × String)} {marker : String}
    {kind : AnnKind} {t v src : String} :
    bindsTV idx marker kind t v src = true ↔
      cellBinding idx marker kind src = some (t, v) := by
  simp [bindsTV]

theorem lookupTV_foldl_addCell (idx : List (String × String × String)) (marker : String)
    (kind : AnnKind) (t v : String) (cells : List String) (tbl : EndpointTable) :
    lookupTV (cells.foldl (addCell idx marker kind) tbl) t v =
      if (cells.filter (bindsTV idx marker kind t v)).isEmpty then lookupTV tbl t v
      else some ((lookupTV tbl t v).getD "" ++ piecesFor idx marker kind t v cells) := by
  induction cells generalizing tbl with
  | nil => simp [piecesFor]
  | cons c cs ih =>
    rw [List.foldl_cons]
    by_cases hb : bindsTV idx marker kind t v c = true
    · have hcb : cellBinding idx marker kind c = some (t, v) := bindsTV_eq_true.mp hb
      have hstep : addCell idx marker kind tbl c = updE tbl t v (ensureNl c) := by
        simp [addCell, hcb]
      have hfilter : (c :: cs).filter (bindsTV idx marker kind t v)
          = c :: cs.filter (bindsTV idx marker kind t v) := by
        simp [List.filter_cons, hb]
      rw [hstep, ih]
      by_cases he : (cs.filter (bindsTV idx marker kind t v)).isEmpty
      · have hcs : cs.filter (bindsTV idx marker kind t v) = [] := by
          simpa using he
        rw [if_pos he, lookupTV_updE_same]
        simp [hfilter, piecesFor, hcs, concatPieces_cons, concatPieces_nil,
          String.append_empty]
      · have hpieces : piecesFor idx marker kind t v (c :: cs)
            = ensureNl c ++ piecesFor idx marker kind t v cs := by
          simp [piecesFor, hfilter, concatPieces_cons]
        rw [if_neg he, lookupTV_updE_same]
        simp [hfilter, hpieces, String.append_assoc]
    · have hfilter : (c :: cs).filter (bindsTV idx marker kind t v)
          = cs.filter (bindsTV idx marker kind t v) := by
        simp [List.filter_cons, hb]
      have hlk : lookupTV (addCell idx marker kind tbl c) t v = lookupTV tbl t v := by
        cases hcb : cellBinding idx marker kind c with
        | none => simp [addCell, hcb]
        | some tv =>
          have hne : t ≠ tv.1 ∨ v ≠ tv.2 := by
            by_contra hcon
            push_neg at hcon
            exact hb (by simp [bindsTV, hcb, hcon.1, hcon.2])
          simp [addCell, hcb, lookupTV_updE_other _ _ _ _ _ _ hne]
      rw [ih, hlk]
      have hpieces : piecesFor idx marker kind t v (c :: cs)
          = piecesFor idx marker kind t v cs := by
        simp [piecesFor, hfilter]
      rw [hfilter, hpieces]

theorem lookupTV_nil (t v : String) : lookupTV [] t v = none := rfl

theorem lookupTV_buildTable (idx : List (String × String × String)) (marker : String)
    (kind : AnnKind) (t v : String) (cells : List String) :
    lookupTV (buildTable idx marker kind cells) t v =
      if (cells.filter (bindsTV idx marker kind t v)).isEmpty then none
      else some (piecesFor idx marker kind t v cells) := by
  have h := lookupTV_foldl_addCell idx marker kind t v cells []
  rw [buildTable, h, lookupTV_nil]
  by_cases he : (cells.filter (bindsTV idx marker kind t v)).isEmpty
  · rw [if_pos he, if_pos he]
  · rw [if_neg he, if_neg he]
    simp [String.empty_append]

/-! ## Key-uniqueness invariants and lookup under sorting -/

theorem mem_keys_updV (vt : VerbTable) (v x a : String) :
    a ∈ (updV vt v x).map (fun p => p.1) ↔ a ∈ vt.map (fun p => p.1) ∨ a = v := by
  induction vt with
  | nil => simp [updV]
  | cons p rest ih =>
    by_cases hp : p.1 = v
    · simp [updV_cons, hp]
      tauto
    · simp [updV_cons, hp, ih]
      tauto

theorem nodup_keys_updV (vt : VerbTable) (v x : String)
    (h : (vt.map (fun p => p.1)).Nodup) : ((updV vt v x).map (fun p => p.1)).Nodup := by
  induction vt with
  | nil => simp [updV]
  | cons p rest ih =>
    rw [List.map_cons, List.nodup_cons] at h
    by_cases hp : p.1 = v
    · simp only [updV_cons, hp, if_true, List.map_cons, List.nodup_cons]
      exact ⟨hp ▸ h.1, h.2⟩
    · simp only [updV_cons, hp, if_false, List.map_cons, List.nodup_cons]
      refine ⟨fun hmem => ?_, ih h.2⟩
      rcases (mem_keys_updV rest v x p.1).mp hmem with hm | hm
      · exact h.1 hm
      · exact hp hm

theorem mem_keys_updE (et : EndpointTable) (t v x : String) (a : String) :
    a ∈ (updE et t v x).map (fun p => p.1) ↔ a ∈ et.map (fun p => p.1) ∨ a = t := by
  induction et with
  | nil => simp [updE]
  | cons p rest ih =>
    by_cases hp : p.1 = t
    · simp [updE_cons, hp]
      tauto
    · simp [updE_cons, hp, ih]
      tauto

theorem nodup_keys_updE (et : EndpointTable) (t v x : String)
    (h : (et.map (fun p => p.1)).Nodup) : ((updE et t v x).map (fun p => p.1)).Nodup := by
  induction et with
  | nil => simp [updE]
  | cons p rest ih =>
    rw [List.map_cons, List.nodup_cons] at h
    by_cases hp : p.1 = t
    · simp only [updE_cons, hp, if_true, List.map_cons, List.nodup_cons]
      exact ⟨hp ▸ h.1, h.2⟩
    · simp only [updE_cons, hp, if_false, List.map_cons, List.nodup_cons]
      refine ⟨fun hmem => ?_, ih h.2⟩
      rcases (mem_keys_updE rest t v x p.1).mp hmem with hm | hm
      · exact h.1 hm
      · exact hp hm

theorem nodup_keys_foldl_addCell (idx : List (String × String × String)) (marker : String)
    (kind : AnnKind) (cells : List String) (tbl : EndpointTable)
    (h : (tbl.map (fun p => p.1)).Nodup) :
    ((cells.foldl (addCell idx marker kind) tbl).map (fun p => p.1)).Nodup := by
  induction cells generalizing tbl with
  | nil => exact h
  | cons c cs ih =>
    rw [List.foldl_cons]
    apply ih
    cases hcb : cellBinding idx marker kind c with
    | none => simpa [addCell, hcb] using h
    | some tv =>
      simp only [addCell, hcb]
      exact nodup_keys_updE _ _ _ _ h

theorem nodup_keys_buildTable (idx : List (String × String × String)) (marker : String)
    (kind : AnnKind) (cells : List String) :
    ((buildTable idx marker kind cells).map (fun p => p.1)).Nodup :=
  nodup_keys_foldl_addCell idx marker kind cells [] (by simp)

theorem verb_nodup_updE (et : EndpointTable) (t v x : String)
    (h : ∀ p ∈ et, (p.2.map (fun q => q.1)).Nodup) :
    ∀ p ∈ updE et t v x, (p.2.map (fun q => q.1)).Nodup := by
  induction et with
  | nil =>
    intro p hp
    simp only [updE, List.mem_singleton] at hp
    subst hp
    simp
  | cons q rest ih =>
    intro p hp
    by_cases hq : q.1 = t
    · rw [updE_cons, if_pos hq] at hp
      rcases List.mem_cons.mp hp with he | hm
      · subst he
        exact nodup_keys_updV _ _ _ (h q (List.mem_cons_self q rest))
      · exact h p (List.mem_cons_of_mem q hm)
    · rw [updE_cons, if_neg hq] at hp
      rcases List.mem_cons.mp hp with he | hm
      · exact he ▸ h q (List.mem_cons_self q rest)
      · exact ih (fun r hr => h r (List.mem_cons_of_mem q hr)) p hm

theorem verb_nodup_foldl_addCell (idx : List (String × String × String)) (marker : String)
    (kind : AnnKind) (cells : List String) (tbl : EndpointTable)
    (h : ∀ p ∈ tbl, (p.2.map (fun q => q.1)).Nodup) :
    ∀ p ∈ cells.foldl (addCell idx marker kind) tbl, (p.2.map (fun q => q.1)).Nodup := by
  induction cells generalizing tbl with
  | nil => exact h
  | cons c cs ih =>
    rw [List.foldl_cons]
    apply ih
    cases hcb : cellBinding idx marker kind c with
    | none => simpa [addCell, hcb] using h
    | some tv =>
      simp only [addCell, hcb]
      exact verb_nodup_updE _ _ _ _ h

theorem verb_nodup_buildTable (idx : List (String × String × String)) (marker : String)
    (kind : AnnKind) (cells : List String) :
    ∀ p ∈ buildTable idx marker kind cells, (p.2.map (fun q => q.1)).Nodup :=
  verb_nodup_foldl_addCell idx marker kind cells [] (by simp)

theorem find?_eq_of_nodup_mem {β : Type} (l : List (String × β)) (t : String) (e : String × β)
    (hnd : (l.map (fun p => p.1)).Nodup) (hm : e ∈ l) (ht : e.1 = t) :
    l.find? (fun p => decide (p.1 = t)) = some e := by
  induction l with
  | nil => cases hm
  | cons q rest ih =>
    rw [List.map_cons, List.nodup_cons] at hnd
    rcases List.mem_cons.mp hm with he | hm'
    · subst he
      exact List.find?_cons_of_pos _ (by simp [ht])
    · have hq : q.1 ≠ t := by
        intro hqt
        apply hnd.1
        have : e.1 ∈ rest.map (fun p => p.1) := List.mem_map_of_mem _ hm'
        rw [ht] at this
        rw [hqt]
        exact this
      rw [List.find?_cons_of_neg _ (by simp [hq])]
      exact ih hnd.2 hm'

theorem lookupTV_perm (et et' : EndpointTable) (hp : et.Perm et')
    (hnd : (et.map (fun p => p.1)).Nodup) (t v : String) :
    lookupTV et' t v = lookupTV et t v := by
  cases hf : et.find? (fun p => decide (p.1 = t)) with
  | none =>
    have hf' : et'.find? (fun p => decide (p.1 = t)) = none := by
      rw [List.find?_eq_none] at hf ⊢
      intro x hx
      exact hf x (hp.mem_iff.mpr hx)
    simp [lookupTV, hf, hf']
  | some e =>
    have he : e ∈ et := List.mem_of_find?_eq_some hf
    have hpred : e.1 = t := by
      have := List.find?_some hf
      simpa using this
    have hnd' : (et'.map (fun p => p.1)).Nodup := ((hp.map _).nodup_iff).mp hnd
    have hf' : et'.find? (fun p => decide (p.1 = t)) = some e :=
      find?_eq_of_nodup_mem _ _ _ hnd' (hp.mem_iff.mp he) hpred
    simp [lookupTV, hf, hf']

theorem lookupTV_sortEndpoints {K : Type} (keyLe : K → K → Bool) (sortKey : String → K)
    (tbl : EndpointTable) (hnd : (tbl.map (fun p => p.1)).Nodup) (t v : String) :
    lookupTV (sortEndpoints keyLe sortKey tbl) t v = lookupTV tbl t v :=
  lookupTV_perm tbl _ (List.perm_insertionSort _ tbl).symm hnd t v

/-! ## Locator lemmas -/

theorem findSpec_eq_none (decode : String → Option SwaggerSpec) (cells : List String)
    (h : ∀ c ∈ cells, decode c = none) : findSpec decode cells = none := by
  induction cells with
  | nil => rfl
  | cons c cs ih =>
    have hc : decode c = none := h c (List.mem_cons_self c cs)
    simp only [findSpec, hc]
    exact ih (fun x hx => h x (List.mem_cons_of_mem c hx))

theorem findSpec_append_none (decode : String → Option SwaggerSpec) (l rest : List String)
    (h : ∀ c ∈ l, decode c = none) :
    findSpec decode (l ++ rest) = findSpec decode rest := by
  induction l with
  | nil => rfl
  | cons c cs ih =>
    have hc : decode c = none := h c (List.mem_cons_self c cs)
    simp only [List.cons_append, findSpec, hc]
    exact ih (fun x hx => h x (List.mem_cons_of_mem c hx))

theorem annotationCells_append_spec (decode : String → Option SwaggerSpec)
    (l l2 : List String) (s : String) (spec : SwaggerSpec)
    (h : ∀ c ∈ l, decode c = none) (hs : decode s = some spec) :
    annotationCells decode (l ++ s :: l2) = l ++ l2 := by
  induction l with
  | nil => simp only [List.nil_append, annotationCells, hs]
  | cons c cs ih =>
    have hc : decode c = none := h c (List.mem_cons_self c cs)
    simp only [List.cons_append, annotationCells, hc, List.append_eq]
    rw [ih (fun x hx => h x (List.mem_cons_of_mem c hx))]

theorem findSpec_middle (decode : String → Option SwaggerSpec) (l1 l2 : List String)
    (c : String) (hc : decode c = none) :
    findSpec decode (l1 ++ c :: l2) = findSpec decode (l1 ++ l2) := by
  induction l1 with
  | nil => simp only [List.nil_append, findSpec, hc]
  | cons x xs ih =>
    cases hx : decode x with
    | some s => simp only [List.cons_append, findSpec, hx]
    | none => simp only [List.cons_append, findSpec, hx]; exact ih

theorem annotationCells_middle (decode : String → Option SwaggerSpec) (l1 l2 : List String)
    (c : String) (hc : decode c = none) :
    ∃ a1 a2, annotationCells decode (l1 ++ l2) = a1 ++ a2 ∧
      annotationCells decode (l1 ++ c :: l2) = a1 ++ c :: a2 := by
  induction l1 with
  | nil =>
    refine ⟨[], annotationCells decode l2, by simp, ?_⟩
    simp only [List.nil_append, annotationCells, hc]
  | cons x xs ih =>
    cases hx : decode x with
    | some s =>
      refine ⟨xs, l2, ?_, ?_⟩
      · simp only [List.cons_append, annotationCells, hx, List.append_eq]
      · simp only [List.cons_append, annotationCells, hx, List.append_eq]
    | none =>
      obtain ⟨a1, a2, h1, h2⟩ := ih
      refine ⟨x :: a1, a2, ?_, ?_⟩
      · simp only [List.cons_append, annotationCells, hx, List.append_eq, h1]
      · simp only [List.cons_append, annotationCells, hx, List.append_eq, h2]

/-! ## Sorting lemmas -/

theorem lexLeNN_iff (a b : Nat × Nat) :
    lexLeNN a b = true ↔ (a.1 < b.1 ∨ (a.1 = b.1 ∧ a.2 ≤ b.2)) := by
  simp [lexLeNN]

theorem lexLeNN_total (a b : Nat × Nat) : lexLeNN a b = true ∨ lexLeNN b a = true := by
  rw [lexLeNN_iff, lexLeNN_iff]
  omega

theorem lexLeNN_trans (a b c : Nat × Nat) :
    lexLeNN a b = true → lexLeNN b c = true → lexLeNN a c = true := by
  rw [lexLeNN_iff, lexLeNN_iff, lexLeNN_iff]
  omega

theorem sortEndpoints_sorted {K : Type} (keyLe : K → K → Bool) (sortKey : String → K)
    (htot : ∀ a b, keyLe a b = true ∨ keyLe b a = true)
    (htr : ∀ a b c, keyLe a b = true → keyLe b c = true → keyLe a c = true)
    (tbl : EndpointTable) :
    (sortEndpoints keyLe sortKey tbl).Sorted
      (fun a b => keyLe (sortKey b.1) (sortKey a.1) = true) := by
  haveI : IsTotal (String × VerbTable) (fun a b => keyLe (sortKey b.1) (sortKey a.1) = true) :=
    ⟨fun a b => htot (sortKey b.1) (sortKey a.1)⟩
  haveI : IsTrans (String × VerbTable) (fun a b => keyLe (sortKey b.1) (sortKey a.1) = true) :=
    ⟨fun a b c hab hbc => htr _ _ _ hbc hab⟩
  exact List.sorted_insertionSort _ tbl

/-! ## Empty-index lemmas -/

theorem lookupOp_nil (opId : String) : lookupOp [] opId = none := rfl

theorem cellBinding_nil_idx (marker : String) (kind : AnnKind) (src : String) :
    cellBinding [] marker kind src = none := by
  cases h : classifyCell marker src with
  | none => simp [cellBinding, h]
  | some p =>
    by_cases hk : p.1 = kind
    · simp [cellBinding, h, hk, lookupOp_nil]
    · simp [cellBinding, h, hk]

theorem buildTable_nil_idx (marker : String) (kind : AnnKind) (cells : List String) :
    buildTable [] marker kind cells = [] := by
  suffices h : ∀ tbl, cells.foldl (addCell [] marker kind) tbl = tbl by
    simpa [buildTable] using h []
  intro tbl
  induction cells generalizing tbl with
  | nil => rfl
  | cons c cs ih =>
    rw [List.foldl_cons]
    have hc : addCell [] marker kind tbl c = tbl := by
      simp [addCell, cellBinding_nil_idx]
    rw [hc]
    exact ih tbl

/-! ## Scanner grammar lemmas -/

theorem isPrefixOf_append_self (l t : List Char) : l.isPrefixOf (l ++ t) = true := by
  induction l with
  | nil => simp
  | cons c cs ih => simp [List.isPrefixOf_cons₂, ih]

theorem dropSpaces_append_spaces (w cs : List Char) (h : ∀ x ∈ w, x = ' ') :
    dropSpaces (w ++ cs) = dropSpaces cs := by
  induction w with
  | nil => rfl
  | cons x xs ih =>
    have hx : x = ' ' := h x (List.mem_cons_self x xs)
    simp only [List.cons_append, dropSpaces, hx, if_true]
    exact ih (fun y hy => h y (List.mem_cons_of_mem x hy))

theorem dropSpaces_cons_ne (c : Char) (cs : List Char) (h : ¬c = ' ') :
    dropSpaces (c :: cs) = c :: cs := by
  simp [dropSpaces, h]

theorem trimChars_spaces_append (w s : List Char) (h : ∀ x ∈ w, x = ' ') :
    trimChars (w ++ s) = trimChars s := by
  rw [trimChars, trimChars, dropSpaces_append_spaces w s h]

theorem splitOnCharAux_no_sep (sep : Char) (cs : List Char) (h : sep ∉ cs) :
    ∀ acc, splitOnCharAux sep cs acc = [acc.reverse ++ cs] := by
  induction cs with
  | nil => intro acc; simp [splitOnCharAux]
  | cons c cs ih =>
    intro acc
    have hc : ¬c = sep := fun he => (List.ne_of_not_mem_cons h) he.symm
    have hcs : sep ∉ cs := List.not_mem_of_not_mem_cons h
    simp only [splitOnCharAux, hc, if_false]
    rw [ih hcs (c :: acc)]
    simp

theorem splitLines_no_newline (cs : List Char) (h : '\n' ∉ cs) :
    splitLines cs = [cs] := by
  rw [splitLines, splitOnChar, splitOnCharAux_no_sep _ _ h []]
  simp

theorem classifyCell_single_line (m line : List Char) (h : '\n' ∉ line) :
    classifyCell (String.mk m) (String.mk line) =
      (classifyLine m line).map (fun p => (p.1, String.mk p.2)) := by
  rw [classifyCell]
  have hdata : (String.mk line).data = line := rfl
  have hm : (String.mk m).data = m := rfl
  rw [hdata, hm, splitLines_no_newline line h]
  cases h' : classifyLine m line with
  | none => simp [List.findSome?, h']
  | some p => simp [List.findSome?, h']

theorem matchOperationTail_grammar (w2 w3 s : List Char)
    (hw2 : ∀ x ∈ w2, x = ' ') (hw3 : ∀ x ∈ w3, x = ' ') :
    matchOperationTail ("operationId".data ++ (w2 ++ ':' :: (w3 ++ s)))
      = some (trimChars s) := by
  have h1 : "operationId".data.isPrefixOf
      ("operationId".data ++ (w2 ++ ':' :: (w3 ++ s))) = true :=
    isPrefixOf_append_self _ _
  have h2 : dropSpaces (w2 ++ ':' :: (w3 ++ s)) = ':' :: (w3 ++ s) := by
    rw [dropSpaces_append_spaces w2 _ hw2]
    exact dropSpaces_cons_ne _ _ (by decide)
  rw [matchOperationTail, if_pos h1, List.drop_left, h2]
  simp [trimChars_spaces_append w3 s hw3]

theorem classifyLine_operation_grammar (m w1 w2 w3 s : List Char)
    (hw1 : ∀ x ∈ w1, x = ' ') (hw2 : ∀ x ∈ w2, x = ' ') (hw3 : ∀ x ∈ w3, x = ' ') :
    classifyLine m (m ++ (w1 ++ ("operationId".data ++ (w2 ++ ':' :: (w3 ++ s)))))
      = some (AnnKind.operation, trimChars s) := by
  have hpre := isPrefixOf_append_self m
    (w1 ++ ("operationId".data ++ (w2 ++ ':' :: (w3 ++ s))))
  have hdrop : dropSpaces (w1 ++ ("operationId".data ++ (w2 ++ ':' :: (w3 ++ s))))
      = "operationId".data ++ (w2 ++ ':' :: (w3 ++ s)) := by
    rw [dropSpaces_append_spaces w1 _ hw1]
    rw [show "operationId".data = 'o' :: "perationId".data from rfl, List.cons_append]
    exact dropSpaces_cons_ne _ _ (by decide)
  have hri : "ResponseInfo".data.isPrefixOf
      ("operationId".data ++ (w2 ++ ':' :: (w3 ++ s))) = false := by
    rw [show "ResponseInfo".data = 'R' :: "esponseInfo".data from rfl,
      show "operationId".data = 'o' :: "perationId".data from rfl, List.cons_append,
      List.isPrefixOf_cons₂]
    have hb : (('R' : Char) == 'o') = false := by decide
    rw [hb, Bool.false_and]
  simp only [classifyLine, hpre, if_true, List.drop_left, hdrop, hri, Bool.false_eq_true,
    if_false, matchOperationTail_grammar w2 w3 s hw2 hw3, Option.map_some']

theorem classifyLine_response_grammar (m u0 u1 u2 u3 s : List Char)
    (hu0 : ∀ x ∈ u0, x = ' ') (hu1 : ∀ x ∈ u1, x = ' ') (hu2 : ∀ x ∈ u2, x = ' ')
    (hu3 : ∀ x ∈ u3, x = ' ') :
    classifyLine m (m ++ (u0 ++ ("ResponseInfo".data ++ ' ' ::
        (u1 ++ ("operationId".data ++ (u2 ++ ':' :: (u3 ++ s)))))))
      = some (AnnKind.response, trimChars s) := by
  have hpre := isPrefixOf_append_self m
    (u0 ++ ("ResponseInfo".data ++ ' ' ::
      (u1 ++ ("operationId".data ++ (u2 ++ ':' :: (u3 ++ s))))))
  have hdrop : dropSpaces (u0 ++ ("ResponseInfo".data ++ ' ' ::
        (u1 ++ ("operationId".data ++ (u2 ++ ':' :: (u3 ++ s))))))
      = "ResponseInfo".data ++ ' ' ::
        (u1 ++ ("operationId".data ++ (u2 ++ ':' :: (u3 ++ s)))) := by
    rw [dropSpaces_append_spaces u0 _ hu0]
    rw [show "ResponseInfo".data = 'R' :: "esponseInfo".data from rfl, List.cons_append]
    exact dropSpaces_cons_ne _ _ (by decide)
  have hri := isPrefixOf_append_self "ResponseInfo".data
    (' ' :: (u1 ++ ("operationId".data ++ (u2 ++ ':' :: (u3 ++ s)))))
  have htail : dropSpaces (u1 ++ ("operationId".data ++ (u2 ++ ':' :: (u3 ++ s))))
      = "operationId".data ++ (u2 ++ ':' :: (u3 ++ s)) := by
    rw [dropSpaces_append_spaces u1 _ hu1]
    rw [show "operationId".data = 'o' :: "perationId".data from rfl, List.cons_append]
    exact dropSpaces_cons_ne _ _ (by decide)
  simp only [classifyLine, hpre, if_true, List.drop_left, hdrop, hri, htail,
    matchOperationTail_grammar u2 u3 s hu2 hu3, Option.map_some']

/-! ## Template synthesis lemmas -/

theorem synthTemplate_eq (P : String) (ns : List String) :
    synthTemplate P ns = P ++ concatPieces (ns.map (fun n => "/:" ++ n)) := by
  induction ns generalizing P with
  | nil => simp [synthTemplate, concatPieces_nil, String.append_empty]
  | cons n ns ih =>
    rw [List.map_cons, concatPieces_cons, synthTemplate, List.foldl_cons]
    have h := ih (P ++ "/:" ++ n)
    rw [synthTemplate] at h
    rw [h]
    simp [String.append_assoc]

/-! ## Binding helper lemmas -/

theorem cellBinding_none_of_undeclared (idx : List (String × String × String))
    (marker : String) (kind : AnnKind) (c : String) (k : AnnKind) (opId : String)
    (hcls : classifyCell marker c = some (k, opId))
    (hop : lookupOp idx opId = none) :
    cellBinding idx marker kind c = none := by
  by_cases hk : k = kind <;> simp [cellBinding, hcls, hk, hop]

theorem buildTable_skip (idx : List (String × String × String)) (marker : String)
    (kind : AnnKind) (a1 a2 : List String) (c : String)
    (h : cellBinding idx marker kind c = none) :
    buildTable idx marker kind (a1 ++ c :: a2) = buildTable idx marker kind (a1 ++ a2) := by
  simp [buildTable, List.foldl_append, List.foldl_cons, addCell, h]

theorem referencedIds_middle (marker : String) (a1 a2 : List String) (c : String)
    (k : AnnKind) (opId : String) (hcls : classifyCell marker c = some (k, opId)) :
    referencedIds marker (a1 ++ c :: a2)
      = referencedIds marker a1 ++ opId :: referencedIds marker a2 := by
  simp [referencedIds, List.filterMap_append, List.filterMap_cons, hcls]

/-! ## Resolver projection lemmas -/

theorem resolve_endpoints_eq {K : Type} (decode : String → Option SwaggerSpec)
    (marker : String) (cells : List String) (keyLe : K → K → Bool) (sortKey : String → K) :
    (resolve decode marker cells keyLe sortKey).endpoints
      = sortEndpoints keyLe sortKey
          (buildTable (declaredIdx decode cells) marker AnnKind.operation
            (annotationCells decode cells)) := rfl

theorem resolve_responses_eq {K : Type} (decode : String → Option SwaggerSpec)
    (marker : String) (cells : List String) (keyLe : K → K → Bool) (sortKey : String → K) :
    (resolve decode marker cells keyLe sortKey).endpoint_responses
      = sortEndpoints keyLe sortKey
          (buildTable (declaredIdx decode cells) marker AnnKind.response
            (annotationCells decode cells)) := rfl

theorem tableOf_resolve {K : Type} (decode : String → Option SwaggerSpec)
    (marker : String) (cells : List String) (keyLe : K → K → Bool) (sortKey : String → K)
    (kind : AnnKind) :
    tableOf (resolve decode marker cells keyLe sortKey) kind
      = sortEndpoints keyLe sortKey
          (buildTable (declaredIdx decode cells) marker kind
            (annotationCells decode cells)) := by
  cases kind <;> rfl

/-! ## Claim theorems -/

/-- C1: under the default strategy, the endpoints operation orders
templates descending by the lexicographic pair (number of path segments,
number of literal non-placeholder segments) — the output is sorted
descending by that key for every input document — and for the declared
templates `/hello/world`, `/hello/:foo`, `/:foo` of the default-sort test
document the resulting sequence is exactly
`[/hello/world, /hello/:foo, /:foo]`. -/
theorem endpoints_default_sort_descending :
    (∀ (decode : String → Option SwaggerSpec) (marker : String) (cells : List String),
      ((resolve decode marker cells lexLeNN defaultSortKey).endpoints).Sorted
        (fun a b => lexLeNN (defaultSortKey b.1) (defaultSortKey a.1) = true))
    ∧ (resolve decode1 "#" cells1 lexLeNN defaultSortKey).endpoints.map (fun e => e.1)
        = ["/hello/world", "/hello/:foo", "/:foo"] := by
  constructor
  · intro decode marker cells
    rw [resolve_endpoints_eq]
    exact sortEndpoints_sorted lexLeNN defaultSortKey lexLeNN_total lexLeNN_trans _
  · decide

/-- C2: for a caller-supplied key function mapping a template to an
orderable value, the endpoints operation orders entries descending by that
key — for every total, transitive key order — and for the custom-sort test
document with the test's key function the resulting sequence is exactly
`[/+, /a, /1]`. -/
theorem endpoints_custom_sort_descending :
    (∀ (K : Type) (keyLe : K → K → Bool) (sortKey : String → K),
      (∀ a b, keyLe a b = true ∨ keyLe b a = true) →
      (∀ a b c, keyLe a b = true → keyLe b c = true → keyLe a c = true) →
      ∀ (decode : String → Option SwaggerSpec) (marker : String) (cells : List String),
      ((resolve decode marker cells keyLe sortKey).endpoints).Sorted
        (fun a b => keyLe (sortKey b.1) (sortKey a.1) = true))
    ∧ (resolve decode2 "#" cells2 Nat.ble customSortFun).endpoints.map (fun e => e.1)
        = ["/+", "/a", "/1"] := by
  constructor
  · intro K keyLe sortKey htot htr decode marker cells
    rw [resolve_endpoints_eq]
    exact sortEndpoints_sorted keyLe sortKey htot htr _
  · decide

/-- Witness for C2: the custom-sort test document, sorted with the natural
order on the test's scalar key, is descending by that key. -/
theorem endpoints_custom_sort_descending_witness :
    ((resolve decode2 "#" cells2 Nat.ble customSortFun).endpoints).Sorted
      (fun a b => Nat.ble (customSortFun b.1) (customSortFun a.1) = true) :=
  endpoints_custom_sort_descending.1 Nat Nat.ble customSortFun
    (fun a b => by simpa using Nat.le_total a b)
    (fun a b c hab hbc => by
      rw [Nat.ble_eq] at hab hbc ⊢
      omega)
    decode2 "#" cells2

/-- C4: the synthesized endpoint template for a declared path `P` with
declared parameter names `[n1, n2, ...]` is `P` followed by the segments
`/:n1/:n2/...` in declared list order; an empty parameter list yields `P`
itself; and re-synthesizing the same specification document yields the
identical declared index. -/
theorem template_synthesis_appends_params :
    (∀ (P : String) (ns : List String),
      synthTemplate P ns = P ++ concatPieces (ns.map (fun n => "/:" ++ n)))
    ∧ (∀ P : String, synthTemplate P [] = P)
    ∧ ∀ spec : SwaggerSpec, operationEntries spec = operationEntries spec := by
  refine ⟨synthTemplate_eq, fun P => rfl, fun spec => rfl⟩

/-- C5: when no cell decodes to a specification document bearing the
marker key, resolution returns empty operation and response routing tables
and emits no undeclared or unreferenced diagnostics, even when annotation
cells are present. -/
theorem resolve_without_spec_is_empty {K : Type} (keyLe : K → K → Bool)
    (sortKey : String → K) (decode : String → Option SwaggerSpec) (marker : String)
    (cells : List String) (h : ∀ c ∈ cells, decode c = none) :
    resolve decode marker cells keyLe sortKey
      = { endpoints := [], endpoint_responses := [], undeclared := [],
          unreferenced := [] } := by
  have hfs : findSpec decode cells = none := findSpec_eq_none decode cells h
  simp [resolve, resolveCore, hfs, idxOf, buildTable_nil_idx, sortEndpoints,
    List.insertionSort]

/-- Witness for C5: a document holding only an operation annotation and no
specification resolves to the empty result. -/
theorem resolve_without_spec_is_empty_witness :
    resolve (fun _ => none) "#" ["# operationId: foo"] lexLeNN defaultSortKey
      = { endpoints := [], endpoint_responses := [], undeclared := [],
          unreferenced := [] } :=
  resolve_without_spec_is_empty lexLeNN defaultSortKey (fun _ => none) "#"
    ["# operationId: foo"] (fun _ _ => rfl)

/-- C7: the resolution result is unchanged when the specification cell is
moved to any position in the cell sequence while the relative order of the
other cells is held fixed (no cell before it decodes, in either
arrangement). -/
theorem resolve_independent_of_spec_position {K : Type} (keyLe : K → K → Bool)
    (sortKey : String → K) (decode : String → Option SwaggerSpec) (marker : String)
    (l1 l2 l1a l2a : List String) (s : String) (spec : SwaggerSpec)
    (h1 : ∀ c ∈ l1, decode c = none) (h1a : ∀ c ∈ l1a, decode c = none)
    (hs : decode s = some spec) (heq : l1 ++ l2 = l1a ++ l2a) :
    resolve decode marker (l1 ++ s :: l2) keyLe sortKey
      = resolve decode marker (l1a ++ s :: l2a) keyLe sortKey := by
  have hf1 : findSpec decode (l1 ++ s :: l2) = some spec := by
    rw [findSpec_append_none decode l1 _ h1]
    simp [findSpec, hs]
  have hf2 : findSpec decode (l1a ++ s :: l2a) = some spec := by
    rw [findSpec_append_none decode l1a _ h1a]
    simp [findSpec, hs]
  have ha1 : annotationCells decode (l1 ++ s :: l2) = l1 ++ l2 :=
    annotationCells_append_spec decode l1 l2 s spec h1 hs
  have ha2 : annotationCells decode (l1a ++ s :: l2a) = l1a ++ l2a :=
    annotationCells_append_spec decode l1a l2a s spec h1a hs
  rw [resolve, resolve, hf1, hf2, ha1, ha2, heq]

/-- Witness for C7: the undeclared-operations test document gives the same
resolution whether the specification cell comes first or last. -/
theorem resolve_independent_of_spec_position_witness :
    resolve decode6 "#" ([] ++ specSrc6 :: annCells6) lexLeNN defaultSortKey
      = resolve decode6 "#" (annCells6 ++ specSrc6 :: []) lexLeNN defaultSortKey :=
  resolve_independent_of_spec_position lexLeNN defaultSortKey decode6 "#"
    [] annCells6 annCells6 [] specSrc6 spec6
    (by intro c hc; cases hc) (by decide) (by decide) (by decide)

/-- C10: the environment received by a launched kernel has
`KERNEL_GATEWAY` set to `"1"`, does not contain `KG_AUTH_TOKEN`, and
agrees with the caller's environment on every other key
(`_async_launch_kernel`, manager.py lines 137-143). -/
theorem launch_kernel_env_frame (env : String → Option String) :
    launchKernelEnv env "KERNEL_GATEWAY" = some "1"
    ∧ launchKernelEnv env "KG_AUTH_TOKEN" = none
    ∧ ∀ k, k ≠ "KERNEL_GATEWAY" → k ≠ "KG_AUTH_TOKEN" →
        launchKernelEnv env k = env k := by
  have hne : ("KERNEL_GATEWAY" : String) ≠ "KG_AUTH_TOKEN" := by decide
  have hne2 : ("KG_AUTH_TOKEN" : String) ≠ "KERNEL_GATEWAY" := by decide
  have hcond : (dictSet env "KERNEL_GATEWAY" "1") "KG_AUTH_TOKEN" = env "KG_AUTH_TOKEN" := by
    simp [dictSet, hne2]
  refine ⟨?_, ?_, fun k hk1 hk2 => ?_⟩
  · by_cases h : (env "KG_AUTH_TOKEN").isSome
    · simp [launchKernelEnv, hcond, h, dictDel, dictSet, hne]
    · simp [launchKernelEnv, hcond, h, dictSet]
  · by_cases h : (env "KG_AUTH_TOKEN").isSome
    · simp [launchKernelEnv, hcond, h, dictDel]
    · have hnone : env "KG_AUTH_TOKEN" = none :=
        Option.not_isSome_iff_eq_none.mp (by simpa using h)
      simp [launchKernelEnv, hcond, h, dictSet, hne2, hnone]
  · by_cases h : (env "KG_AUTH_TOKEN").isSome
    · simp [launchKernelEnv, hcond, h, dictDel, dictSet, hk1, hk2]
    · simp [launchKernelEnv, hcond, h, dictSet, hk1]

/-- Witness for C10: a concrete caller environment containing
`KG_AUTH_TOKEN` and `PATH`. -/
theorem launch_kernel_env_frame_witness :
    launchKernelEnv envC10 "KERNEL_GATEWAY" = some "1"
    ∧ launchKernelEnv envC10 "KG_AUTH_TOKEN" = none
    ∧ launchKernelEnv envC10 "PATH" = envC10 "PATH" :=
  ⟨(launch_kernel_env_frame envC10).1, (launch_kernel_env_frame envC10).2.1,
    (launch_kernel_env_frame envC10).2.2 "PATH" (by decide) (by decide)⟩

/-- C3: when exactly two annotation cells bind to the same
(template, verb) pair, the stored source text is the earlier cell's text
immediately followed by the later cell's text, in document cell order,
each piece carrying its own trailing line terminator (appended when
absent); cells of other operations may sit anywhere around them. -/
theorem endpoint_concatenation_in_document_order {K : Type} (keyLe : K → K → Bool)
    (sortKey : String → K) (decode : String → Option SwaggerSpec) (marker : String)
    (cells : List String) (kind : AnnKind) (t v : String)
    (p1 p2 p3 : List String) (c1 c2 : String)
    (hsplit : annotationCells decode cells = p1 ++ c1 :: (p2 ++ c2 :: p3))
    (h1 : cellBinding (declaredIdx decode cells) marker kind c1 = some (t, v))
    (h2 : cellBinding (declaredIdx decode cells) marker kind c2 = some (t, v))
    (hothers : ∀ c ∈ p1 ++ p2 ++ p3,
      cellBinding (declaredIdx decode cells) marker kind c ≠ some (t, v)) :
    lookupTV (tableOf (resolve decode marker cells keyLe sortKey) kind) t v
      = some (ensureNl c1 ++ ensureNl c2) := by
  rw [tableOf_resolve]
  rw [lookupTV_sortEndpoints _ _ _
    (nodup_keys_buildTable (declaredIdx decode cells) marker kind
      (annotationCells decode cells))]
  rw [lookupTV_buildTable]
  have hb1 : bindsTV (declaredIdx decode cells) marker kind t v c1 = true :=
    bindsTV_eq_true.mpr h1
  have hb2 : bindsTV (declaredIdx decode cells) marker kind t v c2 = true :=
    bindsTV_eq_true.mpr h2
  have hq : ∀ p : List String, (∀ a ∈ p, a ∈ p1 ++ p2 ++ p3) →
      p.filter (bindsTV (declaredIdx decode cells) marker kind t v) = [] := by
    intro p hp
    apply List.filter_eq_nil_iff.mpr
    intro a ha
    have := hothers a (hp a ha)
    simp [bindsTV, this]
  have hp1 : p1.filter (bindsTV (declaredIdx decode cells) marker kind t v) = [] :=
    hq p1 (fun a ha => List.mem_append_left _ (List.mem_append_left _ ha))
  have hp2 : p2.filter (bindsTV (declaredIdx decode cells) marker kind t v) = [] :=
    hq p2 (fun a ha => List.mem_append_left _ (List.mem_append_right _ ha))
  have hp3 : p3.filter (bindsTV (declaredIdx decode cells) marker kind t v) = [] :=
    hq p3 (fun a ha => List.mem_append_right _ ha)
  have hfilter : (annotationCells decode cells).filter
      (bindsTV (declaredIdx decode cells) marker kind t v) = [c1, c2] := by
    rw [hsplit]
    simp [List.filter_append, List.filter_cons, hb1, hb2, hp1, hp2, hp3]
  have hpieces : piecesFor (declaredIdx decode cells) marker kind t v
      (annotationCells decode cells) = ensureNl c1 ++ ensureNl c2 := by
    rw [piecesFor, hfilter]
    simp [concatPieces_cons, concatPieces_nil, String.append_empty]
  rw [hfilter, hpieces]
  simp

/-- Witness for C3: in the concatenation test document the two
`putFoo` cells concatenate, in document order, into the `(/foo/:bar, put)`
entry. -/
theorem endpoint_concatenation_in_document_order_witness :
    lookupTV (tableOf (resolve decode3 "#" cells3 lexLeNN defaultSortKey)
        AnnKind.operation) "/foo/:bar" "put"
      = some (ensureNl "# operationId: putFoo" ++ ensureNl "# operationId: putFoo") :=
  endpoint_concatenation_in_document_order lexLeNN defaultSortKey decode3 "#" cells3
    AnnKind.operation "/foo/:bar" "put"
    ["# operationId: postFooBody ", "# unrelated comment "]
    ["# operationId: puttFoo", "# operationId: getFoo"] []
    "# operationId: putFoo" "# operationId: putFoo"
    (by decide) (by decide) (by decide) (by decide)

/-- C6: an annotation whose operation id is not declared in the located
specification yields exactly one undeclared diagnostic naming that id, and
both routing tables equal those of the same document without that cell —
resolution still completes and returns everything that could be bound. -/
theorem undeclared_annotation_diagnostic {K : Type} (keyLe : K → K → Bool)
    (sortKey : String → K) (decode : String → Option SwaggerSpec) (marker : String)
    (l1 l2 : List String) (c : String) (k : AnnKind) (opId : String) (spec : SwaggerSpec)
    (hdec : decode c = none)
    (hcls : classifyCell marker c = some (k, opId))
    (hspec : findSpec decode (l1 ++ l2) = some spec)
    (hundecl : lookupOp (operationEntries spec) opId = none) :
    (resolve decode marker (l1 ++ c :: l2) keyLe sortKey).undeclared.count opId = 1
    ∧ (resolve decode marker (l1 ++ c :: l2) keyLe sortKey).endpoints
        = (resolve decode marker (l1 ++ l2) keyLe sortKey).endpoints
    ∧ (resolve decode marker (l1 ++ c :: l2) keyLe sortKey).endpoint_responses
        = (resolve decode marker (l1 ++ l2) keyLe sortKey).endpoint_responses := by
  have hfs : findSpec decode (l1 ++ c :: l2) = some spec := by
    rw [findSpec_middle decode l1 l2 c hdec]
    exact hspec
  obtain ⟨a1, a2, hA, hB⟩ := annotationCells_middle decode l1 l2 c hdec
  have hbind : ∀ kind, cellBinding (operationEntries spec) marker kind c = none :=
    fun kind => cellBinding_none_of_undeclared _ _ _ _ _ _ hcls hundecl
  have htbl : ∀ kind, buildTable (operationEntries spec) marker kind (a1 ++ c :: a2)
      = buildTable (operationEntries spec) marker kind (a1 ++ a2) :=
    fun kind => buildTable_skip _ _ _ _ _ _ (hbind kind)
  refine ⟨?_, ?_, ?_⟩
  · rw [resolve, hfs, hB]
    simp only [resolveCore, idxOf]
    rw [referencedIds_middle marker a1 a2 c k opId hcls, List.count_dedup]
    have hmem : opId ∈ (referencedIds marker a1 ++ opId :: referencedIds marker a2).filter
        (fun i => (lookupOp (operationEntries spec) i).isNone) := by
      apply List.mem_filter.mpr
      refine ⟨List.mem_append_right _ (List.mem_cons_self _ _), ?_⟩
      simp [hundecl]
    rw [if_pos hmem]
  · rw [resolve, resolve, hfs, hspec, hB, hA]
    simp only [resolveCore, idxOf]
    rw [htbl AnnKind.operation]
  · rw [resolve, resolve, hfs, hspec, hB, hA]
    simp only [resolveCore, idxOf]
    rw [htbl AnnKind.response]

/-- Witness for C6: in the undeclared-operations test document the
annotation `# operationId: extraOperation` produces exactly one
undeclared diagnostic and leaves both routing tables as they are without
that cell. -/
theorem undeclared_annotation_diagnostic_witness :
    (resolve decode6 "#" ([specSrc6, "# operationId: get", "# operationId: postbar ",
        "# operationId: putbar"] ++ "# operationId: extraOperation" :: [])
        lexLeNN defaultSortKey).undeclared.count "extraOperation" = 1
    ∧ (resolve decode6 "#" ([specSrc6, "# operationId: get", "# operationId: postbar ",
        "# operationId: putbar"] ++ "# operationId: extraOperation" :: [])
        lexLeNN defaultSortKey).endpoints
      = (resolve decode6 "#" ([specSrc6, "# operationId: get", "# operationId: postbar ",
        "# operationId: putbar"] ++ []) lexLeNN defaultSortKey).endpoints
    ∧ (resolve decode6 "#" ([specSrc6, "# operationId: get", "# operationId: postbar ",
        "# operationId: putbar"] ++ "# operationId: extraOperation" :: [])
        lexLeNN defaultSortKey).endpoint_responses
      = (resolve decode6 "#" ([specSrc6, "# operationId: get", "# operationId: postbar ",
        "# operationId: putbar"] ++ []) lexLeNN defaultSortKey).endpoint_responses :=
  undeclared_annotation_diagnostic lexLeNN defaultSortKey decode6 "#"
    [specSrc6, "# operationId: get", "# operationId: postbar ", "# operationId: putbar"]
    [] "# operationId: extraOperation" AnnKind.operation "extraOperation" spec6
    (by decide) (by decide) (by decide) (by decide)

/-- C8: every text stored in a routing table is exactly the concatenation
of the (newline-terminated) sources of the cells whose annotation has that
table's kind and binds to the entry's (template, verb): the operation
table draws only from operation-kind annotations and the response table
only from response-kind annotations, so no cell's text crosses tables,
even when both kinds reference the same operation id. -/
theorem tables_partition_by_annotation_kind {K : Type} (keyLe : K → K → Bool)
    (sortKey : String → K) (decode : String → Option SwaggerSpec) (marker : String)
    (cells : List String) (kind : AnnKind) (t : String) (vt : VerbTable) (v s : String)
    (hmem : (t, vt) ∈ tableOf (resolve decode marker cells keyLe sortKey) kind)
    (hv : (v, s) ∈ vt) :
    s = piecesFor (declaredIdx decode cells) marker kind t v
          (annotationCells decode cells) := by
  rw [tableOf_resolve] at hmem
  have hperm : (sortEndpoints keyLe sortKey
      (buildTable (declaredIdx decode cells) marker kind
        (annotationCells decode cells))).Perm
      (buildTable (declaredIdx decode cells) marker kind (annotationCells decode cells)) :=
    List.perm_insertionSort _ _
  have hmem' : (t, vt) ∈ buildTable (declaredIdx decode cells) marker kind
      (annotationCells decode cells) := hperm.mem_iff.mp hmem
  have hnd := nodup_keys_buildTable (declaredIdx decode cells) marker kind
    (annotationCells decode cells)
  have hfind : (buildTable (declaredIdx decode cells) marker kind
        (annotationCells decode cells)).find? (fun p => decide (p.1 = t))
      = some (t, vt) :=
    find?_eq_of_nodup_mem _ _ _ hnd hmem' rfl
  have hndv : (vt.map (fun q => q.1)).Nodup :=
    verb_nodup_buildTable (declaredIdx decode cells) marker kind
      (annotationCells decode cells) (t, vt) hmem'
  have hfv : vt.find? (fun p => decide (p.1 = v)) = some (v, s) :=
    find?_eq_of_nodup_mem _ _ _ hndv hv rfl
  have hlk : lookupTV (buildTable (declaredIdx decode cells) marker kind
      (annotationCells decode cells)) t v = some s := by
    simp [lookupTV, hfind, lookupVerb, hfv]
  rw [lookupTV_buildTable] at hlk
  by_cases he : ((annotationCells decode cells).filter
      (bindsTV (declaredIdx decode cells) marker kind t v)).isEmpty
  · rw [if_pos he] at hlk
    cases hlk
  · rw [if_neg he] at hlk
    exact (Option.some.inj hlk).symm

/-- Witness for C8: in the shared-id document the `(/f, post)` operation
entry is exactly the concatenation of the operation-kind cells binding
there (the response-kind cell referencing the same id contributes
nothing). -/
theorem tables_partition_by_annotation_kind_witness :
    "# operationId: foo\n"
      = piecesFor (declaredIdx decode8 cells8) "#" AnnKind.operation "/f" "post"
          (annotationCells decode8 cells8) :=
  tables_partition_by_annotation_kind lexLeNN defaultSortKey decode8 "#" cells8
    AnnKind.operation "/f" [("post", "# operationId: foo\n")] "post"
    "# operationId: foo\n" (by decide) (by decide)

theorem no_newline_of_spaces (w : List Char) (h : ∀ x ∈ w, x = ' ') : '\n' ∉ w :=
  fun hmem => absurd (h _ hmem) (by decide)

/-- C9: for every comment marker `m`, operation id `s` and runs of zero or
more spaces `w1, w2, w3`, a cell whose line reads
`m ++ w1 ++ "operationId" ++ w2 ++ ":" ++ w3 ++ s` is detected as an
operation annotation with extracted id `s` (trimmed); and with a run of
one or more spaces after `ResponseInfo` (and runs of zero or more
elsewhere) the response-flavoured line is detected as a response
annotation with the same extracted id. -/
theorem annotation_whitespace_grammar (m w1 w2 w3 u0 u1 u2 u3 s : List Char)
    (hw1 : ∀ x ∈ w1, x = ' ') (hw2 : ∀ x ∈ w2, x = ' ') (hw3 : ∀ x ∈ w3, x = ' ')
    (hu0 : ∀ x ∈ u0, x = ' ') (hu1 : ∀ x ∈ u1, x = ' ') (hu2 : ∀ x ∈ u2, x = ' ')
    (hu3 : ∀ x ∈ u3, x = ' ')
    (hm : '\n' ∉ m) (hs : '\n' ∉ s) :
    classifyCell (String.mk m)
        (String.mk (m ++ (w1 ++ ("operationId".data ++ (w2 ++ ':' :: (w3 ++ s))))))
      = some (AnnKind.operation, String.mk (trimChars s))
    ∧ classifyCell (String.mk m)
        (String.mk (m ++ (u0 ++ ("ResponseInfo".data ++ ' ' ::
          (u1 ++ ("operationId".data ++ (u2 ++ ':' :: (u3 ++ s))))))))
      = some (AnnKind.response, String.mk (trimChars s)) := by
  have hOP : ('\n' : Char) ∉ "operationId".data := by decide
  have hRI : ('\n' : Char) ∉ "ResponseInfo".data := by decide
  have hline1 : ('\n' : Char) ∉
      m ++ (w1 ++ ("operationId".data ++ (w2 ++ ':' :: (w3 ++ s)))) := by
    intro hc
    rcases List.mem_append.mp hc with h | h
    · exact hm h
    rcases List.mem_append.mp h with h | h
    · exact no_newline_of_spaces w1 hw1 h
    rcases List.mem_append.mp h with h | h
    · exact hOP h
    rcases List.mem_append.mp h with h | h
    · exact no_newline_of_spaces w2 hw2 h
    rcases List.mem_cons.mp h with h | h
    · exact absurd h (by decide)
    rcases List.mem_append.mp h with h | h
    · exact no_newline_of_spaces w3 hw3 h
    · exact hs h
  have hline2 : ('\n' : Char) ∉
      m ++ (u0 ++ ("ResponseInfo".data ++ ' ' ::
        (u1 ++ ("operationId".data ++ (u2 ++ ':' :: (u3 ++ s)))))) := by
    intro hc
    rcases List.mem_append.mp hc with h | h
    · exact hm h
    rcases List.mem_append.mp h with h | h
    · exact no_newline_of_spaces u0 hu0 h
    rcases List.mem_append.mp h with h | h
    · exact hRI h
    rcases List.mem_cons.mp h with h | h
    · exact absurd h (by decide)
    rcases List.mem_append.mp h with h | h
    · exact no_newline_of_spaces u1 hu1 h
    rcases List.mem_append.mp h with h | h
    · exact hOP h
    rcases List.mem_append.mp h with h | h
    · exact no_newline_of_spaces u2 hu2 h
    rcases List.mem_cons.mp h with h | h
    · exact absurd h (by decide)
    rcases List.mem_append.mp h with h | h
    · exact no_newline_of_spaces u3 hu3 h
    · exact hs h
  constructor
  · rw [classifyCell_single_line _ _ hline1,
      classifyLine_operation_grammar m w1 w2 w3 s hw1 hw2 hw3]
    rfl
  · rw [classifyCell_single_line _ _ hline2,
      classifyLine_response_grammar m u0 u1 u2 u3 s hu0 hu1 hu2 hu3]
    rfl

/-- Witness for C9: the test lines `# operationId: foo` and
`# ResponseInfo operationId: foo` are detected with extracted id `foo`. -/
theorem annotation_whitespace_grammar_witness :
    classifyCell (String.mk ['#'])
        (String.mk (['#'] ++ ([' '] ++ ("operationId".data ++
          ([] ++ ':' :: ([' '] ++ "foo".data))))))
      = some (AnnKind.operation, String.mk (trimChars "foo".data))
    ∧ classifyCell (String.mk ['#'])
        (String.mk (['#'] ++ ([' '] ++ ("ResponseInfo".data ++ ' ' ::
          ([] ++ ("operationId".data ++ ([] ++ ':' :: ([' '] ++ "foo".data))))))))
      = some (AnnKind.response, String.mk (trimChars "foo".data)) :=
  annotation_whitespace_grammar ['#'] [' '] [] [' '] [' '] [] [] [' '] "foo".data
    (by decide) (by decide) (by decide) (by decide) (by decide) (by decide)
    (by decide) (by decide) (by decide)

/-! ## Validation against the unit tests -/

/-- `test_basic_is_api_cell`: operation annotation detection. -/
theorem validate_basic_is_api_cell :
    is_api_cell "#" "#operationId:foo" = true
    ∧ is_api_cell "#" "# operationId:foo" = true
    ∧ is_api_cell "#" "#operationId: foo" = true
    ∧ is_api_cell "#" "no" = false
    ∧ is_api_cell "#" "# another comment" = false := by
  decide

/-- `test_basic_is_api_response_cell`: response annotation detection. -/
theorem validate_basic_is_api_response_cell :
    is_api_response_cell "#" "#ResponseInfo operationId:foo" = true
    ∧ is_api_response_cell "#" "# ResponseInfo  operationId: foo" = true
    ∧ is_api_response_cell "#" "#ResponseInfo operationId: foo" = true
    ∧ is_api_response_cell "#" "# operationId: foo" = false
    ∧ is_api_response_cell "#" "no" = false := by
  decide

/-- `test_endpoint_concatenation`: table contents of the concatenation
test document. -/
theorem validate_endpoint_concatenation :
    lookupTV (resolve decode3 "#" cells3 lexLeNN defaultSortKey).endpoints
        "/foo" "post" = some "# operationId: postFooBody \n"
    ∧ lookupTV (resolve decode3 "#" cells3 lexLeNN defaultSortKey).endpoints
        "/foo/:bar" "get" = some "# operationId: getFoo\n"
    ∧ lookupTV (resolve decode3 "#" cells3 lexLeNN defaultSortKey).endpoints
        "/foo/:bar" "put"
        = some "# operationId: putFoo\n# operationId: putFoo\n" := by
  decide

/-- `test_undeclared_operations`: the undeclared id is reported. -/
theorem validate_undeclared_operations :
    (resolve decode6 "#" (specSrc6 :: annCells6) lexLeNN defaultSortKey).undeclared
      = ["extraOperation"] := by
  decide

/-- The shared-id document: each table holds only its own kind's text. -/
theorem validate_kind_partition :
    lookupTV (resolve decode8 "#" cells8 lexLeNN defaultSortKey).endpoints
        "/f" "post" = some "# operationId: foo\n"
    ∧ lookupTV (resolve decode8 "#" cells8 lexLeNN defaultSortKey).endpoint_responses
        "/f" "post" = some "# ResponseInfo operationId: foo\n" := by
  decide
